import Mathlib

/-!
Verification of the hot-reload orchestration subsystem of webpack-monkey.

The first half embeds `src/client/client.ts` (the Userscript Instance
Loader): `matchScript`, `loadScript` and the top-level
`userscripts.filter(matchScript).forEach(loadScript)` pass together with the
`module.hot.dispose` preservation of `loadedScripts`.  `urlMatch`
(imported by the client from `src/shared/utils`, not part of the sources
verified here) is kept abstract as a parameter; a pattern evaluation that
throws is modelled by `Except.error`.

The second half models the HMR engine (`monkeyReload`) from the spec, since
`src/client/hmr.ts` is not among the sources: the dependency reachability
filter, the reload decision engine and the teardown coordinator.
-/

namespace Monkey

/-- Userscript meta, the subset the client reads: `include`, `match` and
`exclude` URL pattern lists (each possibly absent, and a single string is
modelled as a one-element list, matching `compact([x]).flat()`). -/
structure UserscriptMeta where
  includeList : Option (List String)
  matchList : Option (List String)
  excludeList : Option (List String)
  deriving DecidableEq, Repr

/-- `UserscriptInfo` from the injected data: name, script url, asset urls,
meta. -/
structure UserscriptInfo where
  name : String
  url : String
  assets : List String
  meta : UserscriptMeta
  deriving DecidableEq, Repr

/-- `compact([a, b, ...]).flat()`: drop the absent entries and concatenate. -/
def compactFlat (l : List (Option (List String))) : List String :=
  (l.filterMap id).flatten

/-- JavaScript `Array.prototype.some` with a predicate that may throw:
left to right, short-circuiting on `true`, propagating the first exception. -/
def someE (f : String → Except String Bool) : List String → Except String Bool
  | [] => .ok false
  | p :: ps =>
    match f p with
    | .error e => .error e
    | .ok true => .ok true
    | .ok false => someE f ps

/-- The body of `matchScript`'s `try` block: some include/match pattern
matches the page url, and no exclude pattern does.  An exception from
`urlMatch` propagates. -/
def matchScriptE (urlMatch : String → String → Except String Bool)
    (pageUrl : String) (s : UserscriptInfo) : Except String Bool :=
  match someE (fun p => urlMatch p pageUrl)
      (compactFlat [s.meta.includeList, s.meta.matchList]) with
  | .error e => .error e
  | .ok true =>
    match someE (fun p => urlMatch p pageUrl) (compactFlat [s.meta.excludeList]) with
    | .error e => .error e
    | .ok true => .ok false
    | .ok false => .ok true
  | .ok false => .ok false

/-- `matchScript`: the `try` block's value, with any exception caught
(logged via `matchScriptLog`) and turned into `false`. -/
def matchScript (urlMatch : String → String → Except String Bool)
    (pageUrl : String) (s : UserscriptInfo) : Bool :=
  match matchScriptE urlMatch pageUrl s with
  | .ok b => b
  | .error _ => false

/-- The log entries `matchScript` emits: one entry for a caught exception,
none otherwise. -/
def matchScriptLog (urlMatch : String → String → Except String Bool)
    (pageUrl : String) (s : UserscriptInfo) : List String :=
  match matchScriptE urlMatch pageUrl s with
  | .ok _ => []
  | .error e => ["Error matching script \"" ++ s.name ++ "\": " ++ e]

/-- The client's state: the `loadedScripts` array, the urls passed to
`__MK_GLOBAL__.loadScript` (script executions), the stylesheet urls attached
to the page, and the log. -/
structure ClientState where
  loadedScripts : List UserscriptInfo
  executed : List String
  attachedCss : List String
  logs : List String
  deriving DecidableEq, Repr

/-- Modelled from the spec: `loadCss` lives in `src/client/css.ts`, which is
not among the sources here.  Per the spec's §4.5 side-effect clause, asset
loading "must not duplicate insertion of assets already attached to the
page", so `loadCss` attaches the stylesheet only when it is not already
attached. -/
def loadCss (st : ClientState) (asset : String) : ClientState :=
  if asset ∈ st.attachedCss then st
  else { st with attachedCss := st.attachedCss ++ [asset] }

/-- JavaScript `String.prototype.endsWith`, computed on the character
list (Lean's `String.endsWith` is extensionally the same but does not
evaluate by kernel reduction). -/
def strEndsWith (s suffix : String) : Bool :=
  suffix.data.isSuffixOf s.data

/-- The `for (const asset of script.assets)` loop of `loadScript`: load
each asset ending in `.css` through `loadCss`; other assets are not
touched. -/
def loadAssets (st : ClientState) (assets : List String) : ClientState :=
  assets.foldl (fun acc asset => if strEndsWith asset ".css" then loadCss acc asset else acc) st

/-- `loadScript`: return early when a script of the same name is already
loaded; otherwise log, push onto `loadedScripts`, execute the script url,
and load every `.css` asset. -/
def loadScript (st : ClientState) (script : UserscriptInfo) : ClientState :=
  if st.loadedScripts.any (fun s => s.name == script.name) then st
  else
    loadAssets
      { st with
        logs := st.logs ++ ["Loading script: " ++ script.name]
        loadedScripts := st.loadedScripts ++ [script]
        executed := st.executed ++ [script.url] }
      script.assets

/-- `userscripts.filter(matchScript).forEach(loadScript)`. -/
def runClient (urlMatch : String → String → Except String Bool) (pageUrl : String)
    (userscripts : List UserscriptInfo) (st : ClientState) : ClientState :=
  (userscripts.filter (matchScript urlMatch pageUrl)).foldl loadScript st

/-- The `module.hot.dispose` callback: stores `loadedScripts` on the hot
data object. -/
def disposeData (st : ClientState) : List UserscriptInfo :=
  st.loadedScripts

/-- One execution of the client module: `loadedScripts` is initialised from
`module.hot.data` (empty on initial load), then the filter/load pass runs.
`page` is the set of stylesheets already attached to the page. -/
def clientMain (urlMatch : String → String → Except String Bool) (pageUrl : String)
    (userscripts : List UserscriptInfo) (hotData : Option (List UserscriptInfo))
    (page : List String) : ClientState :=
  runClient urlMatch pageUrl userscripts
    { loadedScripts := hotData.getD []
      executed := []
      attachedCss := page
      logs := [] }

/-! ## The HMR engine, modelled from the spec

`src/client/hmr.ts` (the `monkeyReload` runtime: dependency reachability
filter, reload decision engine, teardown coordinator) is not among the
sources verified here, so the definitions below are modelled from the
spec's §4.2–§4.4. -/

/-- A registered dispose callback: a tag identifying it, and whether
running it throws. -/
structure DisposeCallback where
  tag : String
  throws : Bool
  deriving DecidableEq, Repr

/-- A module record of the Live Module Set: identifier, dispose stack (in
registration order; drained most-recently-registered first), and the
self-accept / whole-instance-reload markers. -/
structure ModuleRecord where
  id : String
  disposeStack : List DisposeCallback
  selfAccept : Bool
  wholeReload : Bool
  deriving DecidableEq, Repr

/-- A userscript instance: its entry module identifier and its Live Module
Set. -/
structure ScriptInstance where
  entry : String
  modules : List ModuleRecord
  deriving DecidableEq, Repr

/-- The transient reload classification: No-op, Partial (`patch`) or Full. -/
inductive Decision where
  | noOp
  | patch
  | full
  deriving DecidableEq, Repr

/-- An observable event of a reload cycle: a dispose callback ran and
returned, a dispose callback ran and threw, or a module's (replacement)
code was executed. -/
inductive Event where
  | disposed (moduleId tag : String)
  | disposeFailed (moduleId tag : String)
  | reexec (moduleId : String)
  deriving DecidableEq, Repr

/-- Whether an event is the execution of a dispose callback. -/
def Event.isDispose : Event → Bool
  | .disposed _ _ => true
  | .disposeFailed _ _ => true
  | .reexec _ => false

/-- The module an event belongs to. -/
def Event.moduleId : Event → String
  | .disposed m _ => m
  | .disposeFailed m _ => m
  | .reexec m => m

/-- Modelled from the spec: the Dependency Reachability Filter (§4.2).
The ignore predicate is evaluated against each changed module's own
identifier only; the dependency graph plays no part in the exclusion. -/
def relevantModules (ignore : String → Bool) (changed : List String) : List String :=
  changed.filter (fun m => !ignore m)

/-- Bounded reachability in the importer → imported dependency graph. -/
def reachable (graph : List (String × String)) : Nat → String → String → Bool
  | 0, a, b => a == b
  | fuel + 1, a, b =>
    a == b || (graph.filter (fun e => e.1 == a)).any fun e => reachable graph fuel e.2 b

/-- Whether some module of the instance registered whole-instance reload. -/
def wholeReloadRegistered (modules : List ModuleRecord) : Bool :=
  modules.any (·.wholeReload)

/-- Modelled from the spec (§4.3): every module on a dependency path from
the instance's entry to the changed module has opted into self-accept. -/
def pathSelfAccepts (inst : ScriptInstance) (graph : List (String × String))
    (changed : String) : Bool :=
  inst.modules.all fun r =>
    !(reachable graph inst.modules.length inst.entry r.id
        && reachable graph inst.modules.length r.id changed)
      || r.selfAccept

/-- Modelled from the spec: the Reload Decision Engine (§4.3).  Empty
relevant set → No-op; a registered whole-instance reload wins over any
self-accept markers (the tie-break rule); otherwise Partial when every
path from the entry to each relevant changed module self-accepts, else
Full. -/
def decideReload (inst : ScriptInstance) (graph : List (String × String))
    (relevant : List String) : Decision :=
  if relevant.isEmpty then .noOp
  else if wholeReloadRegistered inst.modules then .full
  else if relevant.all (pathSelfAccepts inst graph) then .patch
  else .full

/-- Run one dispose callback, recording whether it threw. -/
def runCallback (moduleId : String) (cb : DisposeCallback) : Event :=
  if cb.throws then .disposeFailed moduleId cb.tag else .disposed moduleId cb.tag

/-- Modelled from the spec: drain one module's dispose stack,
most-recently-registered first; a throwing callback is recorded and does
not stop the drain (§4.4). -/
def drainModule (r : ModuleRecord) : List Event :=
  r.disposeStack.reverse.map (runCallback r.id)

/-- Drain every targeted module's stack. -/
def drainModules (ms : List ModuleRecord) : List Event :=
  (ms.map drainModule).flatten

/-- The modules superseded by a decision: none for No-op, the relevant
changed ones for Partial, the whole Live Module Set for Full. -/
def targetModules (inst : ScriptInstance) (relevant : List String) :
    Decision → List ModuleRecord
  | .noOp => []
  | .patch => inst.modules.filter fun r => relevant.contains r.id
  | .full => inst.modules

/-- A freshly (re-)executed module record: empty dispose stack, no markers
yet. -/
def freshRecord (id : String) : ModuleRecord :=
  ⟨id, [], false, false⟩

/-- The outcome of one change-event cycle: the decision, the observable
event trace, and the Live Module Set afterwards. -/
structure CycleResult where
  decision : Decision
  trace : List Event
  modules : List ModuleRecord
  deriving DecidableEq, Repr

/-- Modelled from the spec: one change-event cycle (§2 data flow).  The
changed set is filtered (§4.2), classified (§4.3); the targeted modules
are fully drained before any replacement code runs (§4.4), then the
replaced modules are re-executed (§4.5): the relevant ones for Partial,
the entry from scratch (after discarding the live set) for Full. -/
def runCycle (inst : ScriptInstance) (graph : List (String × String))
    (ignore : String → Bool) (changed : List String) : CycleResult :=
  match decideReload inst graph (relevantModules ignore changed) with
  | .noOp => ⟨.noOp, [], inst.modules⟩
  | .patch =>
    ⟨.patch,
      drainModules (targetModules inst (relevantModules ignore changed) .patch)
        ++ (targetModules inst (relevantModules ignore changed) .patch).map
            (fun r => .reexec r.id),
      (inst.modules.filter fun r => !(relevantModules ignore changed).contains r.id)
        ++ (targetModules inst (relevantModules ignore changed) .patch).map
            (fun r => freshRecord r.id)⟩
  | .full =>
    ⟨.full, drainModules inst.modules ++ [.reexec inst.entry],
      [freshRecord inst.entry]⟩

/-! ## Lemmas about the client -/

theorem loadCss_loadedScripts (st : ClientState) (a : String) :
    (loadCss st a).loadedScripts = st.loadedScripts := by
  unfold loadCss; split <;> rfl

theorem loadCss_executed (st : ClientState) (a : String) :
    (loadCss st a).executed = st.executed := by
  unfold loadCss; split <;> rfl

theorem loadCss_attached_mono (st : ClientState) (a b : String)
    (h : a ∈ st.attachedCss) : a ∈ (loadCss st b).attachedCss := by
  unfold loadCss; split
  · exact h
  · exact List.mem_append_left _ h

theorem loadCss_mem_self (st : ClientState) (a : String) :
    a ∈ (loadCss st a).attachedCss := by
  unfold loadCss; split
  · assumption
  · exact List.mem_append_right _ (List.mem_singleton.mpr rfl)

theorem loadCss_attached_mem (st : ClientState) (a b : String)
    (h : a ∈ (loadCss st b).attachedCss) : a ∈ st.attachedCss ∨ a = b := by
  unfold loadCss at h; split at h
  · exact Or.inl h
  · rcases List.mem_append.mp h with h' | h'
    · exact Or.inl h'
    · exact Or.inr (List.mem_singleton.mp h')

theorem loadCss_nodup (st : ClientState) (a : String)
    (h : st.attachedCss.Nodup) : (loadCss st a).attachedCss.Nodup := by
  unfold loadCss; split
  · exact h
  · simpa [List.nodup_append] using ⟨h, by assumption⟩

theorem loadAssets_loadedScripts (assets : List String) (st : ClientState) :
    (loadAssets st assets).loadedScripts = st.loadedScripts := by
  induction assets generalizing st with
  | nil => rfl
  | cons a rest ih =>
    unfold loadAssets at *
    simp only [List.foldl_cons]
    rw [ih]
    split <;> simp [loadCss_loadedScripts]

theorem loadAssets_executed (assets : List String) (st : ClientState) :
    (loadAssets st assets).executed = st.executed := by
  induction assets generalizing st with
  | nil => rfl
  | cons a rest ih =>
    unfold loadAssets at *
    simp only [List.foldl_cons]
    rw [ih]
    split <;> simp [loadCss_executed]

theorem loadAssets_attached_mono (assets : List String) (st : ClientState) (a : String)
    (h : a ∈ st.attachedCss) : a ∈ (loadAssets st assets).attachedCss := by
  induction assets generalizing st with
  | nil => exact h
  | cons b rest ih =>
    unfold loadAssets at *
    simp only [List.foldl_cons]
    apply ih
    split
    · exact loadCss_attached_mono st a b h
    · exact h

theorem loadAssets_attached_mem (assets : List String) (st : ClientState) (a : String)
    (h : a ∈ (loadAssets st assets).attachedCss) :
    a ∈ st.attachedCss ∨ (a ∈ assets ∧ strEndsWith a ".css" = true) := by
  induction assets generalizing st with
  | nil => exact Or.inl h
  | cons b rest ih =>
    unfold loadAssets at *
    simp only [List.foldl_cons] at h
    rcases ih _ h with h' | ⟨hmem, hcss⟩
    · by_cases hb : strEndsWith b ".css"
      · simp only [hb, if_true] at h'
        rcases loadCss_attached_mem st a b h' with h'' | rfl
        · exact Or.inl h''
        · exact Or.inr ⟨List.mem_cons_self _ _, hb⟩
      · simp only [hb, if_false] at h'
        exact Or.inl h'
    · exact Or.inr ⟨List.mem_cons_of_mem _ hmem, hcss⟩

theorem loadAssets_attaches (assets : List String) (st : ClientState) (a : String)
    (hmem : a ∈ assets) (hcss : strEndsWith a ".css" = true) :
    a ∈ (loadAssets st assets).attachedCss := by
  induction assets generalizing st with
  | nil => cases hmem
  | cons b rest ih =>
    unfold loadAssets at *
    simp only [List.foldl_cons]
    rcases List.mem_cons.mp hmem with rfl | hmem'
    · apply loadAssets_attached_mono
      simp only [hcss, if_true]
      exact loadCss_mem_self st a
    · exact ih _ hmem'

theorem loadAssets_nodup (assets : List String) (st : ClientState)
    (h : st.attachedCss.Nodup) : (loadAssets st assets).attachedCss.Nodup := by
  induction assets generalizing st with
  | nil => exact h
  | cons b rest ih =>
    unfold loadAssets at *
    simp only [List.foldl_cons]
    apply ih
    split
    · exact loadCss_nodup st b h
    · exact h

theorem name_absent_iff (l : List UserscriptInfo) (n : String) :
    ((l.any fun s => s.name == n) = false) ↔ n ∉ l.map (·.name) := by
  rw [← Bool.not_eq_true, List.any_eq_true]
  constructor
  · rintro h hmem
    rcases List.mem_map.mp hmem with ⟨s, hs, hname⟩
    exact h ⟨s, hs, beq_iff_eq.mpr hname⟩
  · rintro h ⟨s, hs, hname⟩
    exact h (List.mem_map.mpr ⟨s, hs, beq_iff_eq.mp hname⟩)

theorem loadScript_of_loaded (st : ClientState) (s : UserscriptInfo)
    (h : (st.loadedScripts.any fun t => t.name == s.name) = true) :
    loadScript st s = st := by
  unfold loadScript
  simp [h]

theorem loadScript_loadedScripts (st : ClientState) (s : UserscriptInfo) :
    (loadScript st s).loadedScripts = st.loadedScripts ∨
      (loadScript st s).loadedScripts = st.loadedScripts ++ [s] := by
  unfold loadScript
  split
  · exact Or.inl rfl
  · exact Or.inr (loadAssets_loadedScripts _ _)

theorem loadScript_executed_mem (st : ClientState) (s : UserscriptInfo) (x : String)
    (h : x ∈ (loadScript st s).executed) : x ∈ st.executed ∨ x = s.url := by
  unfold loadScript at h
  split at h
  · exact Or.inl h
  · rw [loadAssets_executed] at h
    simpa using h

theorem loadScript_name_mem (st : ClientState) (s : UserscriptInfo) (n : String)
    (h : n ∈ (loadScript st s).loadedScripts.map (·.name)) :
    n ∈ st.loadedScripts.map (·.name) ∨ n = s.name := by
  rcases loadScript_loadedScripts st s with h' | h' <;> rw [h'] at h
  · exact Or.inl h
  · simpa using h

theorem loadScript_attached_mem (st : ClientState) (s : UserscriptInfo) (a : String)
    (h : a ∈ (loadScript st s).attachedCss) :
    a ∈ st.attachedCss ∨ (a ∈ s.assets ∧ strEndsWith a ".css" = true) := by
  unfold loadScript at h
  split at h
  · exact Or.inl h
  · rcases loadAssets_attached_mem _ _ _ h with h' | h'
    · exact Or.inl h'
    · exact Or.inr h'

theorem loadScript_nodup_names (st : ClientState) (s : UserscriptInfo)
    (h : (st.loadedScripts.map (·.name)).Nodup) :
    ((loadScript st s).loadedScripts.map (·.name)).Nodup := by
  unfold loadScript
  split
  · exact h
  · rw [loadAssets_loadedScripts]
    rename_i hany
    have habs : s.name ∉ st.loadedScripts.map (·.name) :=
      (name_absent_iff _ _).mp (by simpa using hany)
    rw [List.map_append, List.nodup_append]
    refine ⟨h, by simp, fun a ha hb => ?_⟩
    simp only [List.map_cons, List.map_nil, List.mem_singleton] at hb
    subst hb
    exact habs ha

theorem loadScript_attached_nodup (st : ClientState) (s : UserscriptInfo)
    (h : st.attachedCss.Nodup) : (loadScript st s).attachedCss.Nodup := by
  unfold loadScript
  split
  · exact h
  · exact loadAssets_nodup _ _ h

theorem foldl_loaded_prefix (scripts : List UserscriptInfo) (st : ClientState) :
    ∃ rest, (scripts.foldl loadScript st).loadedScripts = st.loadedScripts ++ rest := by
  induction scripts generalizing st with
  | nil => exact ⟨[], by simp⟩
  | cons s rest ih =>
    simp only [List.foldl_cons]
    rcases ih (loadScript st s) with ⟨r, hr⟩
    rcases loadScript_loadedScripts st s with h' | h' <;> rw [h'] at hr
    · exact ⟨r, hr⟩
    · exact ⟨[s] ++ r, by simpa using hr⟩

theorem foldl_executed_mem (scripts : List UserscriptInfo) (st : ClientState) (x : String)
    (h : x ∈ (scripts.foldl loadScript st).executed) :
    x ∈ st.executed ∨ ∃ s ∈ scripts, x = s.url := by
  induction scripts generalizing st with
  | nil => exact Or.inl h
  | cons s rest ih =>
    simp only [List.foldl_cons] at h
    rcases ih (loadScript st s) h with h' | ⟨t, ht, hx⟩
    · rcases loadScript_executed_mem st s x h' with h'' | h''
      · exact Or.inl h''
      · exact Or.inr ⟨s, List.mem_cons_self _ _, h''⟩
    · exact Or.inr ⟨t, List.mem_cons_of_mem _ ht, hx⟩

theorem foldl_name_mem (scripts : List UserscriptInfo) (st : ClientState) (n : String)
    (h : n ∈ (scripts.foldl loadScript st).loadedScripts.map (·.name)) :
    n ∈ st.loadedScripts.map (·.name) ∨ ∃ s ∈ scripts, n = s.name := by
  induction scripts generalizing st with
  | nil => exact Or.inl h
  | cons s rest ih =>
    simp only [List.foldl_cons] at h
    rcases ih (loadScript st s) h with h' | ⟨t, ht, hx⟩
    · rcases loadScript_name_mem st s n h' with h'' | h''
      · exact Or.inl h''
      · exact Or.inr ⟨s, List.mem_cons_self _ _, h''⟩
    · exact Or.inr ⟨t, List.mem_cons_of_mem _ ht, hx⟩

theorem foldl_attached_mem (scripts : List UserscriptInfo) (st : ClientState) (a : String)
    (h : a ∈ (scripts.foldl loadScript st).attachedCss) :
    a ∈ st.attachedCss ∨ ∃ s ∈ scripts, a ∈ s.assets ∧ strEndsWith a ".css" = true := by
  induction scripts generalizing st with
  | nil => exact Or.inl h
  | cons s rest ih =>
    simp only [List.foldl_cons] at h
    rcases ih (loadScript st s) h with h' | ⟨t, ht, hx⟩
    · rcases loadScript_attached_mem st s a h' with h'' | h''
      · exact Or.inl h''
      · exact Or.inr ⟨s, List.mem_cons_self _ _, h''⟩
    · exact Or.inr ⟨t, List.mem_cons_of_mem _ ht, hx⟩

theorem foldl_nodup_names (scripts : List UserscriptInfo) (st : ClientState)
    (h : (st.loadedScripts.map (·.name)).Nodup) :
    ((scripts.foldl loadScript st).loadedScripts.map (·.name)).Nodup := by
  induction scripts generalizing st with
  | nil => exact h
  | cons s rest ih =>
    simp only [List.foldl_cons]
    exact ih _ (loadScript_nodup_names st s h)

theorem runClient_drop (um : String → String → Except String Bool) (pageUrl : String)
    (pre post : List UserscriptInfo) (s : UserscriptInfo)
    (hs : matchScript um pageUrl s = false) (st : ClientState) :
    runClient um pageUrl (pre ++ s :: post) st = runClient um pageUrl (pre ++ post) st := by
  unfold runClient
  rw [List.filter_append, List.filter_cons_of_neg, ← List.filter_append]
  simp [hs]

theorem someE_ok (g : String → Bool) (l : List String) :
    someE (fun p => .ok (g p)) l = .ok (l.any g) := by
  induction l with
  | nil => rfl
  | cons p ps ih =>
    unfold someE
    cases hg : g p <;> simp [hg, ih]

theorem compactFlat_pair (a b : Option (List String)) :
    compactFlat [a, b] = a.getD [] ++ b.getD [] := by
  cases a <;> cases b <;> simp [compactFlat]

theorem matchScript_total (um : String → String → Bool) (pageUrl : String)
    (s : UserscriptInfo) :
    matchScript (fun p u => .ok (um p u)) pageUrl s
      = ((compactFlat [s.meta.includeList, s.meta.matchList]).any (fun p => um p pageUrl)
          && !((compactFlat [s.meta.excludeList]).any fun p => um p pageUrl)) := by
  unfold matchScript matchScriptE
  rw [someE_ok, someE_ok]
  cases h1 : (compactFlat [s.meta.includeList, s.meta.matchList]).any (fun p => um p pageUrl) <;>
    cases h2 : (compactFlat [s.meta.excludeList]).any (fun p => um p pageUrl) <;>
      simp [h1, h2]

/-! ## Claim theorems -/

/-- C1: at full-reload (and initial-load) time the client re-evaluates
each instance's URL patterns against the current page location
(`userscripts.filter(matchScript)`), and a non-matching instance is
dropped: it is not in the filter output, its code is not (re-)executed,
its name is not (re-)inserted into the loaded set, and its assets are not
(re-)attached. -/
theorem c1_nonmatching_instance_dropped
    (um : String → String → Except String Bool) (pageUrl : String)
    (us : List UserscriptInfo) (hotData : Option (List UserscriptInfo))
    (page : List String) (s : UserscriptInfo)
    (hs : matchScript um pageUrl s = false)
    (hname0 : s.name ∉ (hotData.getD []).map (·.name))
    (hname : ∀ t ∈ us, matchScript um pageUrl t = true → t.name ≠ s.name)
    (hurl : ∀ t ∈ us, matchScript um pageUrl t = true → t.url ≠ s.url)
    (hassets : ∀ t ∈ us, matchScript um pageUrl t = true → ∀ a ∈ s.assets, a ∉ t.assets)
    (hpage : ∀ a ∈ s.assets, a ∉ page) :
    s ∉ us.filter (matchScript um pageUrl)
      ∧ s.url ∉ (clientMain um pageUrl us hotData page).executed
      ∧ s.name ∉ (clientMain um pageUrl us hotData page).loadedScripts.map (·.name)
      ∧ ∀ a ∈ s.assets, a ∉ (clientMain um pageUrl us hotData page).attachedCss := by
  refine ⟨?_, ?_, ?_, ?_⟩
  · intro hmem
    rcases List.mem_filter.mp hmem with ⟨_, hf⟩
    rw [hs] at hf
    cases hf
  · intro hmem
    unfold clientMain runClient at hmem
    rcases foldl_executed_mem _ _ _ hmem with h | ⟨t, ht, hx⟩
    · simp at h
    · rcases List.mem_filter.mp ht with ⟨ht1, ht2⟩
      exact hurl t ht1 ht2 hx.symm
  · intro hmem
    unfold clientMain runClient at hmem
    rcases foldl_name_mem _ _ _ hmem with h | ⟨t, ht, hx⟩
    · exact hname0 (by simpa using h)
    · rcases List.mem_filter.mp ht with ⟨ht1, ht2⟩
      exact hname t ht1 ht2 hx.symm
  · intro a ha hmem
    unfold clientMain runClient at hmem
    rcases foldl_attached_mem _ _ _ hmem with h | ⟨t, ht, hx, _⟩
    · exact hpage a ha (by simpa using h)
    · rcases List.mem_filter.mp ht with ⟨ht1, ht2⟩
      exact hassets t ht1 ht2 a ha hx

/-- C1 witness: a concrete page whose URL matches one script and not the
other; the non-matching script is dropped entirely. -/
theorem c1_witness :
    matchScript (fun p u => .ok (p == u)) "https://a.example/"
        ⟨"other", "https://dev/other.user.js", ["other.css"],
          ⟨some ["https://b.example/"], none, none⟩⟩ = false
      ∧ "https://dev/other.user.js" ∉
          (clientMain (fun p u => .ok (p == u)) "https://a.example/"
            [⟨"mine", "https://dev/mine.user.js", ["mine.css"],
                ⟨some ["https://a.example/"], none, none⟩⟩,
              ⟨"other", "https://dev/other.user.js", ["other.css"],
                ⟨some ["https://b.example/"], none, none⟩⟩]
            none []).executed := by
  have h := c1_nonmatching_instance_dropped (fun p u => .ok (p == u)) "https://a.example/"
    [⟨"mine", "https://dev/mine.user.js", ["mine.css"],
        ⟨some ["https://a.example/"], none, none⟩⟩,
      ⟨"other", "https://dev/other.user.js", ["other.css"],
        ⟨some ["https://b.example/"], none, none⟩⟩]
    none []
    ⟨"other", "https://dev/other.user.js", ["other.css"],
      ⟨some ["https://b.example/"], none, none⟩⟩
    (by decide) (by decide) (by decide) (by decide) (by decide) (by decide)
  exact ⟨by decide, h.2.1⟩

/-- C2: when evaluating an instance's URL patterns throws, the exception
is caught inside `matchScript` (which returns `false`, treating the
instance as non-matching and dropping it) and logged, and the remaining
instances are matched and loaded exactly as if the broken one were
absent. -/
theorem c2_match_error_isolated
    (um : String → String → Except String Bool) (pageUrl : String)
    (s : UserscriptInfo) (e : String)
    (h : matchScriptE um pageUrl s = .error e)
    (pre post : List UserscriptInfo) (hotData : Option (List UserscriptInfo))
    (page : List String) :
    matchScript um pageUrl s = false
      ∧ matchScriptLog um pageUrl s = ["Error matching script \"" ++ s.name ++ "\": " ++ e]
      ∧ clientMain um pageUrl (pre ++ s :: post) hotData page
          = clientMain um pageUrl (pre ++ post) hotData page := by
  refine ⟨?_, ?_, ?_⟩
  · unfold matchScript
    rw [h]
  · unfold matchScriptLog
    rw [h]
  · unfold clientMain
    exact runClient_drop um pageUrl pre post s (by unfold matchScript; rw [h]) _

/-- C2 witness: a script whose only pattern makes `urlMatch` throw is
dropped, the error is logged, and a sibling script still loads. -/
theorem c2_witness :
    matchScriptE (fun _ _ => .error "bad pattern") "https://a.example/"
        ⟨"broken", "https://dev/broken.user.js", [], ⟨some ["[["], none, none⟩⟩
        = .error "bad pattern"
      ∧ matchScript (fun _ _ => .error "bad pattern") "https://a.example/"
          ⟨"broken", "https://dev/broken.user.js", [], ⟨some ["[["], none, none⟩⟩ = false := by
  have h := c2_match_error_isolated (fun _ _ => .error "bad pattern") "https://a.example/"
    ⟨"broken", "https://dev/broken.user.js", [], ⟨some ["[["], none, none⟩⟩
    "bad pattern" rfl [] [] none []
  exact ⟨rfl, h.1⟩

/-- C3: the loaded-script set is preserved across a full reload of the
client module through the hot-dispose data object, an already-loaded name
makes `loadScript` return without doing anything (no execution, no
re-adding), and the loaded set never holds a name twice. -/
theorem c3_loaded_set_preserved
    (um : String → String → Except String Bool) (pageUrl : String)
    (us : List UserscriptInfo) (prev : ClientState) (page : List String)
    (h : (prev.loadedScripts.map (·.name)).Nodup) :
    (∃ rest, (clientMain um pageUrl us (some (disposeData prev)) page).loadedScripts
        = prev.loadedScripts ++ rest)
      ∧ (∀ (st : ClientState) (s : UserscriptInfo),
          (st.loadedScripts.any fun t => t.name == s.name) = true → loadScript st s = st)
      ∧ ((clientMain um pageUrl us (some (disposeData prev)) page).loadedScripts.map
          (·.name)).Nodup := by
  refine ⟨?_, fun st s hs => loadScript_of_loaded st s hs, ?_⟩
  · unfold clientMain runClient disposeData
    exact foldl_loaded_prefix _ _
  · unfold clientMain runClient disposeData
    exact foldl_nodup_names _ _ h

/-- C3 witness: with one script already recorded in the hot data, the
same script is not loaded (nor executed) again and the name stays
unique. -/
theorem c3_witness :
    ((clientMain (fun _ _ => .ok true) "https://a.example/"
        [⟨"mine", "https://dev/mine.user.js", [], ⟨some ["*"], none, none⟩⟩]
        (some (disposeData ⟨[⟨"mine", "https://dev/mine.user.js", [],
          ⟨some ["*"], none, none⟩⟩], [], [], []⟩)) []).loadedScripts.map
      (·.name)).Nodup :=
  (c3_loaded_set_preserved (fun _ _ => .ok true) "https://a.example/"
    [⟨"mine", "https://dev/mine.user.js", [], ⟨some ["*"], none, none⟩⟩]
    ⟨[⟨"mine", "https://dev/mine.user.js", [], ⟨some ["*"], none, none⟩⟩], [], [], []⟩
    [] (by decide)).2.2

/-- C10: with a total (non-throwing) pattern matcher, an instance matches
iff some pattern of the union of its include and match lists matches the
page URL and no exclude pattern does; an instance declaring neither
include nor match patterns never matches — under any matcher, even a
throwing one — and is never loaded. -/
theorem c10_match_characterisation
    (um : String → String → Bool) (pageUrl : String) (s : UserscriptInfo) :
    (matchScript (fun p u => .ok (um p u)) pageUrl s = true
        ↔ ((∃ p ∈ s.meta.includeList.getD [] ++ s.meta.matchList.getD [], um p pageUrl = true)
            ∧ ∀ p ∈ s.meta.excludeList.getD [], um p pageUrl = false))
      ∧ (s.meta.includeList = none → s.meta.matchList = none →
          ∀ (um2 : String → String → Except String Bool) (pageUrl2 : String),
            matchScript um2 pageUrl2 s = false
              ∧ ∀ pre post hotData page,
                  clientMain um2 pageUrl2 (pre ++ s :: post) hotData page
                    = clientMain um2 pageUrl2 (pre ++ post) hotData page) := by
  constructor
  · rw [matchScript_total, compactFlat_pair]
    have hex : compactFlat [s.meta.excludeList] = s.meta.excludeList.getD [] := by
      cases s.meta.excludeList <;> simp [compactFlat]
    rw [hex, Bool.and_eq_true, Bool.not_eq_true', List.any_eq_true, List.any_eq_false]
    simp only [Bool.not_eq_true]
  · intro hinc hmat um2 pageUrl2
    have hfalse : matchScript um2 pageUrl2 s = false := by
      unfold matchScript matchScriptE
      rw [hinc, hmat]
      rfl
    refine ⟨hfalse, fun pre post hotData page => ?_⟩
    unfold clientMain
    exact runClient_drop um2 pageUrl2 pre post s hfalse _

/-- C9 counterexample: the asset loop of `loadScript` only loads assets
ending in `.css`.  A declared script asset (`app.js`) that is not present
on the page is still absent after the instance loads (even though the
instance itself matched, was executed and its stylesheet was attached), so
the loader does not re-run asset loading for declared *script* assets. -/
theorem c9_counterexample :
    "app.js" ∈
        (UserscriptInfo.mk "s" "https://dev/s.user.js" ["app.js", "style.css"]
          ⟨some ["*"], none, none⟩).assets
      ∧ "https://dev/s.user.js" ∈
          (clientMain (fun _ _ => .ok true) "https://a.example/"
            [⟨"s", "https://dev/s.user.js", ["app.js", "style.css"],
              ⟨some ["*"], none, none⟩⟩] none []).executed
      ∧ "style.css" ∈
          (clientMain (fun _ _ => .ok true) "https://a.example/"
            [⟨"s", "https://dev/s.user.js", ["app.js", "style.css"],
              ⟨some ["*"], none, none⟩⟩] none []).attachedCss
      ∧ "app.js" ∉
          (clientMain (fun _ _ => .ok true) "https://a.example/"
            [⟨"s", "https://dev/s.user.js", ["app.js", "style.css"],
              ⟨some ["*"], none, none⟩⟩] none []).attachedCss := by
  decide

/-- C9 (amended): when `loadScript` actually loads an instance (its name
is not already in the loaded set), every declared `.css` asset ends up
attached to the page, attachment never duplicates an already-attached
asset (a duplicate-free page stays duplicate-free), and nothing but the
declared `.css` assets is ever attached; non-CSS (script) assets are not
loaded by the asset loop. -/
theorem c9_css_assets_loaded (st : ClientState) (script : UserscriptInfo)
    (h : (st.loadedScripts.any fun t => t.name == script.name) = false) :
    (∀ a ∈ script.assets, strEndsWith a ".css" = true → a ∈ (loadScript st script).attachedCss)
      ∧ (st.attachedCss.Nodup → (loadScript st script).attachedCss.Nodup)
      ∧ ∀ a, a ∈ (loadScript st script).attachedCss →
          a ∈ st.attachedCss ∨ (a ∈ script.assets ∧ strEndsWith a ".css" = true) := by
  refine ⟨?_, loadScript_attached_nodup st script, loadScript_attached_mem st script⟩
  intro a ha hcss
  unfold loadScript
  rw [h]
  simp only [Bool.false_eq_true, if_false]
  exact loadAssets_attaches _ _ _ ha hcss

/-- C9 witness: a fresh script with one stylesheet asset gets it attached
exactly once. -/
theorem c9_witness :
    "style.css" ∈
      (loadScript ⟨[], [], [], []⟩
        ⟨"s", "https://dev/s.user.js", ["style.css"], ⟨some ["*"], none, none⟩⟩).attachedCss :=
  (c9_css_assets_loaded ⟨[], [], [], []⟩
      ⟨"s", "https://dev/s.user.js", ["style.css"], ⟨some ["*"], none, none⟩⟩
      (by decide)).1 "style.css" (by decide) (by decide)

/-! ## Lemmas about the HMR model -/

theorem drainModules_cons (m : ModuleRecord) (rest : List ModuleRecord) :
    drainModules (m :: rest) = drainModule m ++ drainModules rest := by
  unfold drainModules
  simp

theorem drainModule_isDispose (r : ModuleRecord) (e : Event) (h : e ∈ drainModule r) :
    e.isDispose = true ∧ e.moduleId = r.id := by
  unfold drainModule at h
  rcases List.mem_map.mp h with ⟨cb, _, rfl⟩
  unfold runCallback
  split <;> exact ⟨rfl, rfl⟩

theorem filter_drainModule_self (r : ModuleRecord) :
    (drainModule r).filter (fun e => e.isDispose && e.moduleId == r.id) = drainModule r := by
  apply List.filter_eq_self.mpr
  intro e he
  rcases drainModule_isDispose r e he with ⟨h1, h2⟩
  simp [h1, h2]

theorem filter_drainModule_ne (r : ModuleRecord) (i : String) (h : r.id ≠ i) :
    (drainModule r).filter (fun e => e.isDispose && e.moduleId == i) = [] := by
  apply List.filter_eq_nil_iff.mpr
  intro e he
  rcases drainModule_isDispose r e he with ⟨h1, h2⟩
  simp [h1, h2, h]

theorem filter_drainModules_not_mem (ms : List ModuleRecord) (i : String)
    (h : i ∉ ms.map (·.id)) :
    (drainModules ms).filter (fun e => e.isDispose && e.moduleId == i) = [] := by
  induction ms with
  | nil => rfl
  | cons m rest ih =>
    simp only [List.map_cons, List.mem_cons, not_or] at h
    rw [drainModules_cons, List.filter_append,
      filter_drainModule_ne m i (fun he => h.1 he.symm), ih h.2]
    rfl

theorem filter_drainModules_mem (ms : List ModuleRecord) (r : ModuleRecord)
    (hnd : (ms.map (·.id)).Nodup) (hr : r ∈ ms) :
    (drainModules ms).filter (fun e => e.isDispose && e.moduleId == r.id) = drainModule r := by
  induction ms with
  | nil => cases hr
  | cons m rest ih =>
    simp only [List.map_cons, List.nodup_cons] at hnd
    rw [drainModules_cons, List.filter_append]
    rcases List.mem_cons.mp hr with rfl | hr'
    · rw [filter_drainModule_self, filter_drainModules_not_mem rest r.id hnd.1]
      simp
    · have hne : m.id ≠ r.id := by
        intro he
        exact hnd.1 (by rw [he]; exact List.mem_map.mpr ⟨r, hr', rfl⟩)
      rw [filter_drainModule_ne m r.id hne, ih hnd.2 hr']
      rfl

theorem mem_drainModules (ms : List ModuleRecord) (B : ModuleRecord) (c : DisposeCallback)
    (hB : B ∈ ms) (hc : c ∈ B.disposeStack) :
    runCallback B.id c ∈ drainModules ms := by
  unfold drainModules
  apply List.mem_flatten.mpr
  refine ⟨drainModule B, List.mem_map.mpr ⟨B, hB, rfl⟩, ?_⟩
  unfold drainModule
  exact List.mem_map.mpr ⟨c, List.mem_reverse.mpr hc, rfl⟩

theorem runCycle_decision (inst : ScriptInstance) (graph : List (String × String))
    (ignore : String → Bool) (changed : List String) :
    (runCycle inst graph ignore changed).decision
      = decideReload inst graph (relevantModules ignore changed) := by
  unfold runCycle
  cases hdec : decideReload inst graph (relevantModules ignore changed) <;> rfl

theorem runCycle_trace_decomp (inst : ScriptInstance) (graph : List (String × String))
    (ignore : String → Bool) (changed : List String)
    (hd : decideReload inst graph (relevantModules ignore changed) ≠ Decision.noOp) :
    ∃ reexecPhase,
      (runCycle inst graph ignore changed).trace
          = drainModules (targetModules inst (relevantModules ignore changed)
              (runCycle inst graph ignore changed).decision) ++ reexecPhase
        ∧ (∀ e ∈ reexecPhase, ∃ m, e = Event.reexec m)
        ∧ (targetModules inst (relevantModules ignore changed)
              (runCycle inst graph ignore changed).decision ≠ []
            → ∃ m, Event.reexec m ∈ reexecPhase) := by
  unfold runCycle
  cases hdec : decideReload inst graph (relevantModules ignore changed) with
  | noOp => exact absurd hdec hd
  | patch =>
    refine ⟨(targetModules inst (relevantModules ignore changed) .patch).map
        (fun r => Event.reexec r.id), rfl, ?_, ?_⟩
    · intro e he
      rcases List.mem_map.mp he with ⟨r, _, rfl⟩
      exact ⟨r.id, rfl⟩
    · intro hne
      rcases List.exists_mem_of_ne_nil _ hne with ⟨r, hr⟩
      exact ⟨r.id, List.mem_map.mpr ⟨r, hr, rfl⟩⟩
  | full =>
    refine ⟨[Event.reexec inst.entry], rfl, ?_, ?_⟩
    · intro e he
      rcases List.mem_singleton.mp he with rfl
      exact ⟨inst.entry, rfl⟩
    · exact fun _ => ⟨inst.entry, List.mem_singleton.mpr rfl⟩

/-- C4 (modelled from the spec; the HMR engine source is not under the
verified tree): a change event whose filtered relevant module set is empty
is decided No-op immediately: the cycle's trace is empty (no dispose
callback runs, no module is re-executed) and the Live Module Set is left
untouched. -/
theorem c4_noop_purity (inst : ScriptInstance) (graph : List (String × String))
    (ignore : String → Bool) (changed : List String)
    (h : relevantModules ignore changed = []) :
    runCycle inst graph ignore changed = ⟨Decision.noOp, [], inst.modules⟩ := by
  unfold runCycle
  rw [h]
  unfold decideReload
  simp

/-- C4 witness: a change touching only an ignored module is a pure
no-op. -/
theorem c4_witness :
    runCycle ⟨"entry", [⟨"entry", [⟨"cleanup", false⟩], false, true⟩]⟩
        [("entry", "node_modules/lodash")]
        (fun m => m == "node_modules/lodash") ["node_modules/lodash"]
      = ⟨Decision.noOp, [], [⟨"entry", [⟨"cleanup", false⟩], false, true⟩]⟩ :=
  c4_noop_purity ⟨"entry", [⟨"entry", [⟨"cleanup", false⟩], false, true⟩]⟩
    [("entry", "node_modules/lodash")]
    (fun m => m == "node_modules/lodash") ["node_modules/lodash"] (by decide)

/-- C5 (modelled from the spec): under any Partial or Full decision the
cycle's trace decomposes as a drain phase followed by a re-execution
phase containing no dispose events, and for every replaced module the
dispose events of that module in the trace are exactly its registered
dispose stack, run most-recently-registered first and each exactly
once — so all of a module's dispose callbacks have completed before any
replacement code begins executing. -/
theorem c5_dispose_before_replace (inst : ScriptInstance) (graph : List (String × String))
    (ignore : String → Bool) (changed : List String)
    (hnd : (inst.modules.map (·.id)).Nodup)
    (hd : (runCycle inst graph ignore changed).decision ≠ Decision.noOp) :
    ∃ reexecPhase,
      (runCycle inst graph ignore changed).trace
          = drainModules (targetModules inst (relevantModules ignore changed)
              (runCycle inst graph ignore changed).decision) ++ reexecPhase
        ∧ (∀ e ∈ reexecPhase, e.isDispose = false)
        ∧ ∀ r ∈ targetModules inst (relevantModules ignore changed)
              (runCycle inst graph ignore changed).decision,
            (runCycle inst graph ignore changed).trace.filter
                (fun e => e.isDispose && e.moduleId == r.id)
              = r.disposeStack.reverse.map (runCallback r.id) := by
  have hd' : decideReload inst graph (relevantModules ignore changed) ≠ Decision.noOp := by
    rwa [runCycle_decision] at hd
  rcases runCycle_trace_decomp inst graph ignore changed hd' with ⟨rp, htrace, hre, _⟩
  have htnodup : ((targetModules inst (relevantModules ignore changed)
      (runCycle inst graph ignore changed).decision).map (·.id)).Nodup := by
    cases (runCycle inst graph ignore changed).decision with
    | noOp => simp [targetModules]
    | patch =>
      simp only [targetModules]
      exact List.Nodup.sublist
        ((List.filter_sublist _).map fun r : ModuleRecord => r.id) hnd
    | full => exact hnd
  refine ⟨rp, htrace, ?_, ?_⟩
  · intro e he
    rcases hre e he with ⟨m, rfl⟩
    rfl
  · intro r hr
    rw [htrace, List.filter_append]
    rw [filter_drainModules_mem _ r htnodup hr]
    have hrp : rp.filter (fun e => e.isDispose && e.moduleId == r.id) = [] := by
      apply List.filter_eq_nil_iff.mpr
      intro e he
      rcases hre e he with ⟨m, rfl⟩
      simp [Event.isDispose]
    rw [hrp, List.append_nil]
    rfl

/-- C5 witness: a Full decision on an instance with one module carrying
two dispose callbacks (the later-registered one throwing). -/
theorem c5_witness :
    ∃ reexecPhase,
      (runCycle ⟨"e", [⟨"e", [⟨"a", false⟩, ⟨"b", true⟩], false, true⟩]⟩ []
            (fun _ => false) ["e"]).trace
          = drainModules (targetModules ⟨"e", [⟨"e", [⟨"a", false⟩, ⟨"b", true⟩], false, true⟩]⟩
              (relevantModules (fun _ => false) ["e"])
              (runCycle ⟨"e", [⟨"e", [⟨"a", false⟩, ⟨"b", true⟩], false, true⟩]⟩ []
                (fun _ => false) ["e"]).decision) ++ reexecPhase
        ∧ (∀ e ∈ reexecPhase, e.isDispose = false)
        ∧ ∀ r ∈ targetModules ⟨"e", [⟨"e", [⟨"a", false⟩, ⟨"b", true⟩], false, true⟩]⟩
              (relevantModules (fun _ => false) ["e"])
              (runCycle ⟨"e", [⟨"e", [⟨"a", false⟩, ⟨"b", true⟩], false, true⟩]⟩ []
                (fun _ => false) ["e"]).decision,
            (runCycle ⟨"e", [⟨"e", [⟨"a", false⟩, ⟨"b", true⟩], false, true⟩]⟩ []
                (fun _ => false) ["e"]).trace.filter
                (fun e => e.isDispose && e.moduleId == r.id)
              = r.disposeStack.reverse.map (runCallback r.id) :=
  c5_dispose_before_replace ⟨"e", [⟨"e", [⟨"a", false⟩, ⟨"b", true⟩], false, true⟩]⟩ []
    (fun _ => false) ["e"] (by decide) (by decide)

/-- C6 (modelled from the spec): if any module of the instance registered
whole-instance reload, then every change event with a non-empty relevant
set — in particular every changed set reachable from the instance's
entry — is decided Full, regardless of self-accept markers on
intermediate modules. -/
theorem c6_whole_reload_wins (inst : ScriptInstance) (graph : List (String × String))
    (ignore : String → Bool) (changed : List String)
    (hw : wholeReloadRegistered inst.modules = true)
    (hne : relevantModules ignore changed ≠ [])
    (_hreach : ∀ c ∈ changed, reachable graph inst.modules.length inst.entry c = true) :
    (runCycle inst graph ignore changed).decision = Decision.full := by
  rw [runCycle_decision]
  unfold decideReload
  rw [if_neg (by simpa [List.isEmpty_iff] using hne), if_pos hw]

/-- C6 witness: the entry registers whole-instance reload, an
intermediate module self-accepts, a reachable leaf changes — the decision
is still Full. -/
theorem c6_witness :
    (runCycle
        ⟨"e", [⟨"e", [], false, true⟩, ⟨"mid", [], true, false⟩, ⟨"leaf", [], true, false⟩]⟩
        [("e", "mid"), ("mid", "leaf")] (fun _ => false) ["leaf"]).decision
      = Decision.full :=
  c6_whole_reload_wins
    ⟨"e", [⟨"e", [], false, true⟩, ⟨"mid", [], true, false⟩, ⟨"leaf", [], true, false⟩]⟩
    [("e", "mid"), ("mid", "leaf")] (fun _ => false) ["leaf"]
    (by decide) (by decide) (by decide)

/-- C7 (modelled from the spec): a throwing dispose callback does not
prevent any other registered dispose callback — in the same module or a
sibling module of the same cycle — from running, and does not prevent
the reinitialization: every callback of every targeted module has its
execution event in the trace, and a re-execution event follows. -/
theorem c7_failure_isolation (inst : ScriptInstance) (graph : List (String × String))
    (ignore : String → Bool) (changed : List String) (A : ModuleRecord)
    (cb : DisposeCallback)
    (hd : (runCycle inst graph ignore changed).decision ≠ Decision.noOp)
    (hA : A ∈ targetModules inst (relevantModules ignore changed)
        (runCycle inst graph ignore changed).decision)
    (_hcb : cb ∈ A.disposeStack) (_hthrows : cb.throws = true) :
    (∀ B ∈ targetModules inst (relevantModules ignore changed)
        (runCycle inst graph ignore changed).decision,
      ∀ c ∈ B.disposeStack,
        runCallback B.id c ∈ (runCycle inst graph ignore changed).trace)
      ∧ ∃ m, Event.reexec m ∈ (runCycle inst graph ignore changed).trace := by
  have hd' : decideReload inst graph (relevantModules ignore changed) ≠ Decision.noOp := by
    rwa [runCycle_decision] at hd
  rcases runCycle_trace_decomp inst graph ignore changed hd' with ⟨rp, htrace, _, hnonempty⟩
  constructor
  · intro B hB c hc
    rw [htrace]
    exact List.mem_append_left _ (mem_drainModules _ B c hB hc)
  · rcases hnonempty (by
      intro h0
      rw [h0] at hA
      cases hA) with ⟨m, hm⟩
    exact ⟨m, by rw [htrace]; exact List.mem_append_right _ hm⟩

/-- C7 witness: module a's only disposer throws; module b's disposer
still runs and the entry is still re-executed. -/
theorem c7_witness :
    (∀ B ∈ targetModules
        ⟨"e", [⟨"a", [⟨"boom", true⟩], false, true⟩, ⟨"b", [⟨"ok", false⟩], false, false⟩]⟩
        (relevantModules (fun _ => false) ["a"])
        (runCycle ⟨"e", [⟨"a", [⟨"boom", true⟩], false, true⟩,
            ⟨"b", [⟨"ok", false⟩], false, false⟩]⟩ [] (fun _ => false) ["a"]).decision,
      ∀ c ∈ B.disposeStack,
        runCallback B.id c ∈ (runCycle ⟨"e", [⟨"a", [⟨"boom", true⟩], false, true⟩,
            ⟨"b", [⟨"ok", false⟩], false, false⟩]⟩ [] (fun _ => false) ["a"]).trace)
      ∧ ∃ m, Event.reexec m ∈ (runCycle ⟨"e", [⟨"a", [⟨"boom", true⟩], false, true⟩,
          ⟨"b", [⟨"ok", false⟩], false, false⟩]⟩ [] (fun _ => false) ["a"]).trace :=
  c7_failure_isolation
    ⟨"e", [⟨"a", [⟨"boom", true⟩], false, true⟩, ⟨"b", [⟨"ok", false⟩], false, false⟩]⟩
    [] (fun _ => false) ["a"] ⟨"a", [⟨"boom", true⟩], false, true⟩ ⟨"boom", true⟩
    (by decide) (by decide) (by decide) (by decide)

/-- C8 (modelled from the spec): the ignore predicate is evaluated
against each changed module's own identifier only — an ignored module is
dropped from every relevant set no matter what depends on it — and a
change touching only ignored modules yields an empty relevant set and a
No-op decision on every graph and instance. -/
theorem c8_ignore_own_id_only (ignore : String → Bool) (changed : List String)
    (hall : ∀ m ∈ changed, ignore m = true) :
    (∀ m, ignore m = true → ∀ ch : List String, m ∉ relevantModules ignore ch)
      ∧ relevantModules ignore changed = []
      ∧ ∀ (graph : List (String × String)) (inst : ScriptInstance),
          (runCycle inst graph ignore changed).decision = Decision.noOp := by
  have hrel : relevantModules ignore changed = [] := by
    apply List.filter_eq_nil_iff.mpr
    intro m hm
    simp [hall m hm]
  refine ⟨?_, hrel, ?_⟩
  · intro m hm ch hmem
    rcases List.mem_filter.mp hmem with ⟨_, hf⟩
    simp [hm] at hf
  · intro graph inst
    rw [runCycle_decision, hrel]
    rfl

/-- C8 witness: an ignored module with a non-ignored dependent is still
dropped and the cycle is a No-op. -/
theorem c8_witness :
    ("node_modules/lib" ∉ relevantModules (fun m => m == "node_modules/lib")
        ["node_modules/lib"])
      ∧ (runCycle ⟨"e", [⟨"e", [], false, true⟩, ⟨"node_modules/lib", [], false, false⟩]⟩
          [("e", "node_modules/lib")] (fun m => m == "node_modules/lib")
          ["node_modules/lib"]).decision = Decision.noOp := by
  have h := c8_ignore_own_id_only (fun m => m == "node_modules/lib") ["node_modules/lib"]
    (by decide)
  exact ⟨h.1 "node_modules/lib" (by decide) ["node_modules/lib"],
    h.2.2 [("e", "node_modules/lib")]
      ⟨"e", [⟨"e", [], false, true⟩, ⟨"node_modules/lib", [], false, false⟩]⟩⟩

end Monkey
